import Mathlib

/-
  Verification of the entry-point module of the battery_notes Home Assistant
  integration (custom_components/battery_notes/__init__.py).

  The module is embedded shallowly: each Python function becomes a Lean
  function over explicit data; host-platform effects (coordinator updates,
  service registration, config entry reloads) are recorded as values so that
  theorems can speak about which effects occur.  Python exceptions are
  modelled with Option (none = the call raises).  Character classes of the
  migration regex are modelled over their ASCII fragments.
-/

set_option autoImplicit false

namespace BatteryNotes

/-- Modelled from the spec: const.py is not under src, so the string constants
imported by the module are given here as symbolic values.  The claims depend
only on which constants are distinct, never on the concrete spellings. -/
def DOMAIN : String := "battery_notes"

/-- Modelled from the spec: key under which the domain config is stored. -/
def DOMAIN_CONFIG : String := "domain_config"

/-- Modelled from the spec: YAML option enabling autodiscovery. -/
def CONF_ENABLE_AUTODISCOVERY : String := "enable_autodiscovery"

/-- Modelled from the spec: YAML option naming a user battery library. -/
def CONF_USER_LIBRARY : String := "user_library"

/-- Modelled from the spec: YAML option to show all devices. -/
def CONF_SHOW_ALL_DEVICES : String := "show_all_devices"

/-- Modelled from the spec: YAML option enabling the replaced feature. -/
def CONF_ENABLE_REPLACED : String := "enable_replaced"

/-- Modelled from the spec: name of the battery replaced service. -/
def SERVICE_BATTERY_REPLACED : String := "set_battery_replaced"

/-- Modelled from the spec: identifier of the voluptuous schema that
validates the battery replaced service calls. -/
def SERVICE_BATTERY_REPLACED_SCHEMA : String := "SERVICE_BATTERY_REPLACED_SCHEMA"

/-- Modelled from the spec: config entry data key for the battery type. -/
def CONF_BATTERY_TYPE : String := "battery_type"

/-- Modelled from the spec: config entry data key for the battery quantity. -/
def CONF_BATTERY_QUANTITY : String := "battery_quantity"

/-- Modelled from the spec: coordinator payload key marking removal. -/
def ATTR_REMOVE : String := "remove"

/-- Modelled from the spec: service call attribute holding the device id. -/
def ATTR_DEVICE_ID : String := "device_id"

/-- Modelled from the spec: service call attribute holding the replacement
date. -/
def ATTR_DATE_TIME_REPLACED : String := "datetime_replaced"

/-- Modelled from the spec: CONFIG_VERSION is imported from config_flow.py,
which is not under src; the migration code only needs it as the version
written into migrated entries. -/
def CONFIG_VERSION : Nat := 2

/-- A Python datetime: a naive timestamp together with an optional timezone
(offset in minutes); tzOffsetMin = none models a naive datetime. -/
structure DT where
  ticks : Int
  tzOffsetMin : Option Int
deriving DecidableEq, Repr

/-- datetime.replace with tzinfo None: strips the timezone information. -/
def replaceTzinfoNone (d : DT) : DT :=
  { d with tzOffsetMin := none }

/-- Values stored in config entry data, domain config and coordinator
payloads. -/
inductive Val where
  | str (s : String)
  | int (n : Int)
  | bool (b : Bool)
  | dt (d : DT)
deriving DecidableEq, Repr

/-- Python truthiness of a value. -/
def truthy : Val → Bool
  | .str s => !s.isEmpty
  | .int n => n != 0
  | .bool b => b
  | .dt _ => true

/-- Python truthiness of d.get(key): None is falsy. -/
def truthyOpt : Option Val → Bool
  | none => false
  | some v => truthy v

/-- Dictionary lookup on an association list (first binding wins, mirroring a
Python dict in which each key occurs once). -/
def alookup {α : Type} : List (String × α) → String → Option α
  | [], _ => none
  | (k, v) :: rest, key => if key = k then some v else alookup rest key

/-- Dictionary assignment d[key] = v: overwrite an existing binding, else
append a new one. -/
def dset {α : Type} : List (String × α) → String → α → List (String × α)
  | [], key, v => [(key, v)]
  | (k, w) :: rest, key, v =>
      if key = k then (key, v) :: rest else (k, w) :: dset rest key v

/-- ASCII fragment of the regex class backslash-d. -/
def isDigitChar (c : Char) : Bool := c.isDigit

/-- ASCII fragment of the regex class backslash-w: letters, digits and the
underscore. -/
def isWordChar (c : Char) : Bool := c.isAlphanum || c == '_'

/-- ASCII fragment of the regex class backslash-s. -/
def isSpaceChar (c : Char) : Bool :=
  c == ' ' || c == '\t' || c == '\n' || c == '\r' || c == '\x0b' || c == '\x0c'

/-- The tail of the first alternative of the migration regex: word characters
followed by the end-of-string anchor.  In Python the anchor also matches just
before a newline that is the last character, so the word characters may run
to the end of the string or to just before one final newline; the returned
list is what the second capture group holds. -/
def wordCharsToEnd (cs : List Char) : Option (List Char) :=
  if cs ≠ [] ∧ ∀ c ∈ cs, isWordChar c = true then some cs
  else
    match cs.getLast? with
    | some c =>
        if c = '\n' ∧ cs.dropLast ≠ [] ∧ ∀ x ∈ cs.dropLast, isWordChar x = true then
          some cs.dropLast
        else none
    | none => none

/-- The first alternative of the migration regex, anchored at the start: one
or more digits (group 1), a lookahead for the letter x, the letter x consumed
together with one whitespace character, then word characters to the end
(group 2).  Returns the two captured groups when the branch matches. -/
def searchBranchA (cs : List Char) : Option (List Char × List Char) :=
  if cs.takeWhile isDigitChar = [] then none
  else
    match cs.dropWhile isDigitChar with
    | c1 :: c2 :: rest =>
        if c1 = 'x' ∧ isSpaceChar c2 = true then
          (wordCharsToEnd rest).map (fun ws => (cs.takeWhile isDigitChar, ws))
        else none
    | _ => none

/-- The quantity and type produced by the regex search of
async_migrate_entry on the version 1 battery type string.  When the first
alternative matches, group 1 is the quantity and group 2 the type; otherwise
the second alternative matches any non-empty string whole, giving quantity
the string 1 and leaving the type unchanged; on the empty string nothing
matches and the quantity is the Python integer 1. -/
def migrateSplit (s : String) : Val × Val :=
  match searchBranchA s.data with
  | some (ds, ws) => (Val.str (String.mk ds), Val.str (String.mk ws))
  | none =>
      if s = "" then (Val.int 1, Val.str s) else (Val.str "1", Val.str s)

/-- A host config entry: version, title, entry id and its data mapping. -/
structure ConfigEntry where
  version : Nat
  title : String
  entry_id : String
  data : List (String × Val)
deriving DecidableEq, Repr

/-- async_migrate_entry: on a version 1 entry, split the single battery type
string into quantity and type and bump the version to CONFIG_VERSION; on any
other version do nothing.  Returns the (possibly updated) entry together
with the returned boolean; none models the KeyError or TypeError raised when
a version 1 entry has no string under CONF_BATTERY_TYPE. -/
def async_migrate_entry (config_entry : ConfigEntry) : Option (ConfigEntry × Bool) :=
  if config_entry.version = 1 then
    match alookup config_entry.data CONF_BATTERY_TYPE with
    | some (Val.str s) =>
        some ({ config_entry with
                  version := CONFIG_VERSION,
                  data := dset (dset config_entry.data CONF_BATTERY_TYPE (migrateSplit s).2)
                            CONF_BATTERY_QUANTITY (migrateSplit s).1 }, true)
    | _ => none
  else
    some (config_entry, true)

/-- An effect performed on the coordinator: a device config update with a
payload, or a refresh request. -/
inductive CoordAction where
  | updateDeviceConfig (device_id : Val) (data : List (String × Val))
  | requestRefresh
deriving DecidableEq, Repr

/-- A device registry entry: the config entries associated to the device. -/
structure Device where
  config_entries : List String
deriving DecidableEq, Repr

/-- The validated data of a battery replaced service call: an optional device
id and an optional replacement datetime. -/
structure SvcCall where
  device_id : Option String
  datetime_replaced : Option DT
deriving DecidableEq, Repr

/-- The body of the for loop of handle_battery_replaced: for each config
entry id of the device, when the entry exists and belongs to DOMAIN, update
the device config with the replacement date and request a refresh. -/
def replacedLoop (entries : List (String × String)) (device_id : String)
    (datetime_replaced : DT) : List String → List CoordAction
  | [] => []
  | entry_id :: rest =>
      (match alookup entries entry_id with
       | some dom =>
           if dom = DOMAIN then
             [CoordAction.updateDeviceConfig (Val.str device_id)
                [("battery_last_replaced", Val.dt datetime_replaced)],
              CoordAction.requestRefresh]
           else []
       | none => []) ++ replacedLoop entries device_id datetime_replaced rest

/-- handle_battery_replaced: devReg is the host device registry (device id
to device entry), entries maps config entry ids to their domains, asUtc is
the host dt_util.as_utc conversion and now the value of datetime.utcnow().
The returned list records every coordinator effect the handler performs, in
order. -/
def handle_battery_replaced (devReg : List (String × Device))
    (entries : List (String × String)) (asUtc : DT → DT) (now : DT)
    (call : SvcCall) : List CoordAction :=
  let device_id := call.device_id.getD ""
  let datetime_replaced :=
    match call.datetime_replaced with
    | some d => replaceTzinfoNone (asUtc d)
    | none => now
  match alookup devReg device_id with
  | none => []
  | some device_entry =>
      replacedLoop entries device_id datetime_replaced device_entry.config_entries

/-- A service registration performed on the host: domain, service name and
the schema validating the calls. -/
structure ServiceRegistration where
  domain : String
  service : String
  schema : String
deriving DecidableEq, Repr

/-- register_services: the list of every hass.services.async_register call
the module performs, in order. -/
def register_services : List ServiceRegistration :=
  [{ domain := DOMAIN, service := SERVICE_BATTERY_REPLACED,
     schema := SERVICE_BATTERY_REPLACED_SCHEMA }]

/-- async_remove_entry: when the entry data has a device_id, update the
coordinator device config with a removal payload; otherwise perform no
effect.  The returned list records the coordinator effects. -/
def async_remove_entry (config_entry : ConfigEntry) : List CoordAction :=
  match alookup config_entry.data "device_id" with
  | none => []
  | some device_id =>
      [CoordAction.updateDeviceConfig device_id [(ATTR_REMOVE, Val.bool true)]]

/-- A call performed on the host config entries manager. -/
inductive HostCall where
  | reload (entry_id : String)
deriving DecidableEq, Repr

/-- async_update_options: the list of host calls performed for an updated
entry. -/
def async_update_options (entry : ConfigEntry) : List HostCall :=
  [HostCall.reload entry.entry_id]

/-- The result of async_setup: the returned boolean, the domain config stored
under hass.data (none when nothing was stored), and whether each subsystem
was started. -/
structure SetupResult where
  returnValue : Bool
  domainData : Option (List (String × Val))
  storeLoaded : Bool
  coordinatorCreated : Bool
  libraryUpdaterStarted : Bool
  coordinatorRefreshed : Bool
  discoveryStarted : Bool
deriving DecidableEq, Repr

/-- The fallback domain config used by async_setup when the host
configuration holds no (or a falsy) section for DOMAIN. -/
def fallbackDomainConfig : List (String × Val) :=
  [(CONF_ENABLE_AUTODISCOVERY, Val.bool true),
   (CONF_SHOW_ALL_DEVICES, Val.bool false),
   (CONF_ENABLE_REPLACED, Val.bool true)]

/-- async_setup: haVersionBelowMin is the host-side comparison of the
running Home Assistant version against MIN_HA_VERSION (the AwesomeVersion
comparison is host library code and is taken as an input); config maps
domains to their validated sections.  Mirrors the early return on an old
host version, the fallback for a missing or falsy domain section, the
store, coordinator, library updater and refresh startup, and the discovery
start guarded by the truthiness of the enable autodiscovery value. -/
def async_setup (haVersionBelowMin : Bool)
    (config : List (String × List (String × Val))) : SetupResult :=
  if haVersionBelowMin then
    { returnValue := false, domainData := none, storeLoaded := false,
      coordinatorCreated := false, libraryUpdaterStarted := false,
      coordinatorRefreshed := false, discoveryStarted := false }
  else
    let domain_config :=
      match alookup config DOMAIN with
      | some sec => if sec.isEmpty then fallbackDomainConfig else sec
      | none => fallbackDomainConfig
    { returnValue := true, domainData := some domain_config, storeLoaded := true,
      coordinatorCreated := true, libraryUpdaterStarted := true,
      coordinatorRefreshed := true,
      discoveryStarted := truthyOpt (alookup domain_config CONF_ENABLE_AUTODISCOVERY) }

/-- The defaults declared by CONFIG_SCHEMA for the DOMAIN section: each
optional key missing from the section is filled with its declared default
(the validators cv.boolean and cv.string are host helpers and value
coercion is not relevant to the claims). -/
def applyConfigSchemaDefaults (sec : List (String × Val)) : List (String × Val) :=
  let s1 := if (alookup sec CONF_ENABLE_AUTODISCOVERY).isSome then sec
            else dset sec CONF_ENABLE_AUTODISCOVERY (Val.bool true)
  let s2 := if (alookup s1 CONF_USER_LIBRARY).isSome then s1
            else dset s1 CONF_USER_LIBRARY (Val.str "")
  let s3 := if (alookup s2 CONF_SHOW_ALL_DEVICES).isSome then s2
            else dset s2 CONF_SHOW_ALL_DEVICES (Val.bool false)
  if (alookup s3 CONF_ENABLE_REPLACED).isSome then s3
  else dset s3 CONF_ENABLE_REPLACED (Val.bool true)

/-- The exact shape of the battery type string described by the spec
sentence for the migration: digits, then the letter x, then one whitespace
character, then word characters running to the end of the string.  Stated
from the spec words, for comparison with the code behavior. -/
def specExactShape (s : String) : Bool :=
  !(s.data.takeWhile isDigitChar).isEmpty &&
    (match s.data.dropWhile isDigitChar with
     | c1 :: c2 :: rest =>
         (c1 == 'x') && isSpaceChar c2 && !rest.isEmpty && rest.all isWordChar
     | _ => false)

/-- The amended shape: the word characters may run to the end of the string
or to just before one final newline (the Python end anchor also matches
there); q holds the leading digits and t the word characters. -/
def SpecAmendedShape (s q t : String) : Prop :=
  q.data ≠ [] ∧ (∀ c ∈ q.data, isDigitChar c = true) ∧
  t.data ≠ [] ∧ (∀ c ∈ t.data, isWordChar c = true) ∧
  ∃ w, isSpaceChar w = true ∧
    (s.data = q.data ++ 'x' :: w :: t.data ∨
     s.data = q.data ++ 'x' :: w :: (t.data ++ ['\n']))

/-- What the (amended) spec sentence says the migration computes for a
non-empty battery type string s: quantity q and type t split along the
amended shape, or q the string 1 and t the original string when s has no
such decomposition. -/
def SpecSplitsAs (s q t : String) : Prop :=
  SpecAmendedShape s q t ∨
  ((¬ ∃ q2 t2, SpecAmendedShape s q2 t2) ∧ q = "1" ∧ t = s)

theorem alookup_dset_self {α : Type} (d : List (String × α)) (k : String) (v : α) :
    alookup (dset d k v) k = some v := by
  induction d with
  | nil => simp [dset, alookup]
  | cons hd tl ih =>
      obtain ⟨k1, w⟩ := hd
      by_cases h : k = k1
      · simp [dset, h, alookup]
      · simp [dset, h, alookup, ih]

theorem alookup_dset_ne {α : Type} (d : List (String × α)) (k key : String) (v : α)
    (h : key ≠ k) : alookup (dset d k v) key = alookup d key := by
  induction d with
  | nil => simp [dset, alookup, h]
  | cons hd tl ih =>
      obtain ⟨k1, w⟩ := hd
      by_cases h1 : k = k1
      · subst h1; simp [dset, alookup, h]
      · simp only [dset, if_neg h1, alookup]
        by_cases h2 : key = k1
        · simp [h2]
        · simp [h2, ih]

theorem takeWhile_append_of (p : Char → Bool) (l1 : List Char) (a : Char) (l2 : List Char)
    (h1 : ∀ c ∈ l1, p c = true) (h2 : p a = false) :
    (l1 ++ a :: l2).takeWhile p = l1 := by
  induction l1 with
  | nil => simp [List.takeWhile_cons, h2]
  | cons c cs ih =>
      have hc : p c = true := h1 c (by simp)
      simp only [List.cons_append, List.takeWhile_cons, hc, if_true]
      rw [ih (fun x hx => h1 x (by simp [hx]))]

theorem dropWhile_append_of (p : Char → Bool) (l1 : List Char) (a : Char) (l2 : List Char)
    (h1 : ∀ c ∈ l1, p c = true) (h2 : p a = false) :
    (l1 ++ a :: l2).dropWhile p = a :: l2 := by
  induction l1 with
  | nil => simp [List.dropWhile_cons, h2]
  | cons c cs ih =>
      have hc : p c = true := h1 c (by simp)
      simp only [List.cons_append, List.dropWhile_cons, hc, if_true]
      exact ih (fun x hx => h1 x (by simp [hx]))

theorem wordCharsToEnd_sound (cs ws : List Char) (h : wordCharsToEnd cs = some ws) :
    ws ≠ [] ∧ (∀ c ∈ ws, isWordChar c = true) ∧ (cs = ws ∨ cs = ws ++ ['\n']) := by
  unfold wordCharsToEnd at h
  by_cases h1 : cs ≠ [] ∧ ∀ c ∈ cs, isWordChar c = true
  · rw [if_pos h1] at h
    obtain rfl : cs = ws := Option.some.inj h
    exact ⟨h1.1, h1.2, Or.inl rfl⟩
  · rw [if_neg h1] at h
    cases hlast : cs.getLast? with
    | none => rw [hlast] at h; exact absurd h (by simp)
    | some c =>
        rw [hlast] at h
        have h' : (if c = '\n' ∧ cs.dropLast ≠ [] ∧ ∀ x ∈ cs.dropLast, isWordChar x = true
            then some cs.dropLast else none) = some ws := h
        by_cases h2 : c = '\n' ∧ cs.dropLast ≠ [] ∧ ∀ x ∈ cs.dropLast, isWordChar x = true
        · rw [if_pos h2] at h'
          obtain rfl : cs.dropLast = ws := Option.some.inj h'
          refine ⟨h2.2.1, h2.2.2, Or.inr ?_⟩
          have hne : cs ≠ [] := by
            intro he; subst he; simp at hlast
          have hg : cs.getLast hne = c := by
            have := List.getLast?_eq_getLast cs hne
            rw [this] at hlast
            exact Option.some.inj hlast
          rw [← h2.1, ← hg]
          exact (List.dropLast_append_getLast hne).symm
        · rw [if_neg h2] at h'
          exact absurd h' (by simp)

theorem wordCharsToEnd_all_word (ws : List Char) (h1 : ws ≠ [])
    (h2 : ∀ c ∈ ws, isWordChar c = true) : wordCharsToEnd ws = some ws := by
  unfold wordCharsToEnd
  rw [if_pos ⟨h1, h2⟩]

theorem wordCharsToEnd_newline (ws : List Char) (h1 : ws ≠ [])
    (h2 : ∀ c ∈ ws, isWordChar c = true) :
    wordCharsToEnd (ws ++ ['\n']) = some ws := by
  have hnw : isWordChar '\n' = false := by decide
  have hnot : ¬ (ws ++ ['\n'] ≠ [] ∧ ∀ c ∈ ws ++ ['\n'], isWordChar c = true) := by
    rintro ⟨-, hall⟩
    have := hall '\n' (by simp)
    rw [hnw] at this
    exact Bool.false_ne_true this
  have hlast : (ws ++ ['\n']).getLast? = some '\n' := by
    simp [List.getLast?_concat]
  have hdl : (ws ++ ['\n']).dropLast = ws := by
    simp [List.dropLast_concat]
  unfold wordCharsToEnd
  rw [if_neg hnot, hlast]
  show (if '\n' = '\n' ∧ (ws ++ ['\n']).dropLast ≠ [] ∧
          ∀ x ∈ (ws ++ ['\n']).dropLast, isWordChar x = true
        then some (ws ++ ['\n']).dropLast else none) = some ws
  rw [hdl]
  rw [if_pos ⟨rfl, h1, h2⟩]

theorem searchBranchA_sound (cs ds ws : List Char) (h : searchBranchA cs = some (ds, ws)) :
    ds ≠ [] ∧ (∀ c ∈ ds, isDigitChar c = true) ∧
    ∃ c2 rest, cs = ds ++ 'x' :: c2 :: rest ∧ isSpaceChar c2 = true ∧
      wordCharsToEnd rest = some ws := by
  unfold searchBranchA at h
  by_cases h0 : cs.takeWhile isDigitChar = []
  · rw [if_pos h0] at h; exact absurd h (by simp)
  · rw [if_neg h0] at h
    cases hdrop : cs.dropWhile isDigitChar with
    | nil => rw [hdrop] at h; exact absurd h (by simp)
    | cons c1 tl =>
        cases tl with
        | nil => rw [hdrop] at h; exact absurd h (by simp)
        | cons c2 rest =>
            rw [hdrop] at h
            have h' : (if c1 = 'x' ∧ isSpaceChar c2 = true then
                (wordCharsToEnd rest).map (fun ws => (cs.takeWhile isDigitChar, ws))
                else none) = some (ds, ws) := h
            by_cases hg : c1 = 'x' ∧ isSpaceChar c2 = true
            · rw [if_pos hg] at h'
              obtain ⟨c1eq, hsp⟩ := hg
              subst c1eq
              obtain ⟨ws0, hws0, heq⟩ := Option.map_eq_some'.mp h'
              obtain ⟨hds, hws⟩ := Prod.mk.inj heq
              subst hds; subst hws
              refine ⟨h0, fun c hc => List.mem_takeWhile_imp hc, c2, rest, ?_, hsp, hws0⟩
              conv_lhs => rw [← List.takeWhile_append_dropWhile isDigitChar cs]
              rw [hdrop]
            · rw [if_neg hg] at h'
              exact absurd h' (by simp)

theorem searchBranchA_complete (q t : List Char) (c2 : Char) (tail : List Char)
    (hq : q ≠ []) (hqd : ∀ c ∈ q, isDigitChar c = true) (hsp : isSpaceChar c2 = true)
    (hw : wordCharsToEnd tail = some t) :
    searchBranchA (q ++ 'x' :: c2 :: tail) = some (q, t) := by
  have hx : isDigitChar 'x' = false := by decide
  have ht : (q ++ 'x' :: c2 :: tail).takeWhile isDigitChar = q :=
    takeWhile_append_of isDigitChar q 'x' (c2 :: tail) hqd hx
  have hd : (q ++ 'x' :: c2 :: tail).dropWhile isDigitChar = 'x' :: c2 :: tail :=
    dropWhile_append_of isDigitChar q 'x' (c2 :: tail) hqd hx
  unfold searchBranchA
  rw [ht, hd, if_neg hq]
  show (if ('x' : Char) = 'x' ∧ isSpaceChar c2 = true then
          (wordCharsToEnd tail).map (fun ws => (q, ws)) else none) = some (q, t)
  rw [if_pos ⟨rfl, hsp⟩, hw]
  rfl

theorem searchBranchA_shape_sound (s : String) (ds ws : List Char)
    (h : searchBranchA s.data = some (ds, ws)) :
    SpecAmendedShape s (String.mk ds) (String.mk ws) := by
  obtain ⟨hne, hdig, c2, rest, hcs, hsp, hw⟩ := searchBranchA_sound s.data ds ws h
  obtain ⟨hwne, hword, hcase⟩ := wordCharsToEnd_sound rest ws hw
  refine ⟨hne, hdig, hwne, hword, c2, hsp, ?_⟩
  cases hcase with
  | inl h1 => left; rw [hcs, h1]
  | inr h1 => right; rw [hcs, h1]

theorem searchBranchA_of_shape (s q t : String) (h : SpecAmendedShape s q t) :
    searchBranchA s.data = some (q.data, t.data) := by
  obtain ⟨hq, hqd, ht, htw, w, hsp, hcase⟩ := h
  cases hcase with
  | inl h1 =>
      rw [h1]
      exact searchBranchA_complete q.data t.data w t.data hq hqd hsp
        (wordCharsToEnd_all_word t.data ht htw)
  | inr h1 =>
      rw [h1]
      exact searchBranchA_complete q.data t.data w (t.data ++ ['\n']) hq hqd hsp
        (wordCharsToEnd_newline t.data ht htw)

theorem migrateSplit_spec (s : String) (hs : s ≠ "") :
    ∃ q t : String, migrateSplit s = (Val.str q, Val.str t) ∧ SpecSplitsAs s q t := by
  rcases hA : searchBranchA s.data with _ | ⟨ds, ws⟩
  · refine ⟨"1", s, ?_, Or.inr ⟨?_, rfl, rfl⟩⟩
    · unfold migrateSplit; rw [hA, if_neg hs]
    · rintro ⟨q2, t2, hsh⟩
      have hc := searchBranchA_of_shape s q2 t2 hsh
      rw [hA] at hc
      exact absurd hc (by simp)
  · refine ⟨String.mk ds, String.mk ws, ?_, Or.inl (searchBranchA_shape_sound s ds ws hA)⟩
    unfold migrateSplit; rw [hA]

/-- C1, counterexample to the claim as stated: the string holding 2, x, a
space, AA and a final newline is non-empty and is not of the exact claimed
shape (its last character is a newline, not a word character), so the claim
requires quantity the string 1 and an unchanged type; the code instead
splits it into quantity 2 and type AA, because the Python end anchor also
matches just before a final newline. -/
theorem async_migrate_entry_C1_counterexample :
    specExactShape "2x AA\n" = false ∧ "2x AA\n" ≠ "" ∧
    async_migrate_entry
        { version := 1, title := "t", entry_id := "e",
          data := [(CONF_BATTERY_TYPE, Val.str "2x AA\n")] } =
      some ({ version := CONFIG_VERSION, title := "t", entry_id := "e",
              data := [(CONF_BATTERY_TYPE, Val.str "AA"),
                       (CONF_BATTERY_QUANTITY, Val.str "2")] }, true) := by
  refine ⟨by decide, by decide, ?_⟩
  rfl

/-- C1 (amended): for every version 1 entry whose data holds a non-empty
string under CONF_BATTERY_TYPE, async_migrate_entry splits it into the two
new fields: when the string is digits, then x, then one whitespace
character, then word characters running to the end of the string or to just
before a single trailing newline, the new quantity is the leading digits
and the new type is the word characters; for every other non-empty string
the quantity becomes the string 1 and the type keeps the original string. -/
theorem async_migrate_entry_v1_splits (e : ConfigEntry) (s : String)
    (hv : e.version = 1)
    (hd : alookup e.data CONF_BATTERY_TYPE = some (Val.str s))
    (hs : s ≠ "") :
    ∃ e2 : ConfigEntry, async_migrate_entry e = some (e2, true) ∧
      ∃ q t : String,
        alookup e2.data CONF_BATTERY_QUANTITY = some (Val.str q) ∧
        alookup e2.data CONF_BATTERY_TYPE = some (Val.str t) ∧
        SpecSplitsAs s q t := by
  obtain ⟨q, t, hqt, hspec⟩ := migrateSplit_spec s hs
  refine ⟨{ e with
            version := CONFIG_VERSION
            data := dset (dset e.data CONF_BATTERY_TYPE (migrateSplit s).2)
                      CONF_BATTERY_QUANTITY (migrateSplit s).1 }, ?_, q, t, ?_, ?_, hspec⟩
  · unfold async_migrate_entry
    rw [if_pos hv, hd]
  · simp only [hqt]
    exact alookup_dset_self _ _ _
  · have hne : CONF_BATTERY_TYPE ≠ CONF_BATTERY_QUANTITY := by decide
    simp only [hqt]
    rw [alookup_dset_ne _ _ _ _ hne]
    exact alookup_dset_self _ _ _

/-- Witness for the amended C1 theorem at the concrete entry holding the
battery type string 2x AA. -/
theorem async_migrate_entry_v1_splits_witness :
    ∃ e2 : ConfigEntry,
      async_migrate_entry
          { version := 1, title := "t", entry_id := "e",
            data := [(CONF_BATTERY_TYPE, Val.str "2x AA")] } = some (e2, true) ∧
      ∃ q t : String,
        alookup e2.data CONF_BATTERY_QUANTITY = some (Val.str q) ∧
        alookup e2.data CONF_BATTERY_TYPE = some (Val.str t) ∧
        SpecSplitsAs "2x AA" q t :=
  async_migrate_entry_v1_splits
    { version := 1, title := "t", entry_id := "e",
      data := [(CONF_BATTERY_TYPE, Val.str "2x AA")] }
    "2x AA" rfl rfl (by decide)

/-- C2, counterexample to the claim as stated: a version 1 entry whose data
has no CONF_BATTERY_TYPE key makes async_migrate_entry raise a KeyError
(modelled as none), so it does not return True on every config entry. -/
theorem async_migrate_entry_C2_counterexample :
    async_migrate_entry { version := 1, title := "t", entry_id := "e", data := [] } =
      none := rfl

/-- C2 (amended): for every config entry whose version is not 1,
async_migrate_entry leaves the entry data and version unchanged and returns
True, and every invocation that completes without raising returns True. -/
theorem async_migrate_entry_one_time (e : ConfigEntry) :
    (e.version ≠ 1 → async_migrate_entry e = some (e, true)) ∧
    (∀ e2 b, async_migrate_entry e = some (e2, b) → b = true) := by
  constructor
  · intro h
    unfold async_migrate_entry
    rw [if_neg h]
  · intro e2 b hb
    unfold async_migrate_entry at hb
    by_cases hv : e.version = 1
    · rw [if_pos hv] at hb
      cases hlk : alookup e.data CONF_BATTERY_TYPE with
      | none => rw [hlk] at hb; exact absurd hb (by simp)
      | some v =>
          rw [hlk] at hb
          cases v with
          | str s => exact (Prod.mk.inj (Option.some.inj hb)).2.symm
          | int n => exact absurd hb (by simp)
          | bool b2 => exact absurd hb (by simp)
          | dt d => exact absurd hb (by simp)
    · rw [if_neg hv] at hb
      exact (Prod.mk.inj (Option.some.inj hb)).2.symm

/-- Witness for the amended C2 theorem at a concrete version 2 entry. -/
theorem async_migrate_entry_one_time_witness :
    async_migrate_entry { version := 2, title := "t", entry_id := "e", data := [] } =
      some ({ version := 2, title := "t", entry_id := "e", data := [] }, true) :=
  (async_migrate_entry_one_time
    { version := 2, title := "t", entry_id := "e", data := [] }).1 (by decide)

/-- C8: on the empty version 1 battery type string the regex does not match
and the migrated quantity is the Python integer 1, while on every non-empty
string the quantity is a string, either 1 or the matched leading digits. -/
theorem migrateSplit_quantity_kind :
    (migrateSplit "").1 = Val.int 1 ∧
    ∀ s : String, s ≠ "" →
      ∃ q : String, (migrateSplit s).1 = Val.str q ∧
        (q = "1" ∨ (q ≠ "" ∧ ∀ c ∈ q.data, isDigitChar c = true)) := by
  constructor
  · rfl
  · intro s hs
    rcases hA : searchBranchA s.data with _ | ⟨ds, ws⟩
    · refine ⟨"1", ?_, Or.inl rfl⟩
      unfold migrateSplit; rw [hA, if_neg hs]
    · obtain ⟨hne, hdig, -⟩ := searchBranchA_sound s.data ds ws hA
      refine ⟨String.mk ds, ?_, Or.inr ⟨?_, hdig⟩⟩
      · unfold migrateSplit; rw [hA]
      · intro hmk
        exact hne (by simpa using congrArg String.data hmk)

/-- Witness for the C8 theorem, applying it on the empty string and on the
concrete non-empty string AA. -/
theorem migrateSplit_quantity_kind_witness :
    (migrateSplit "").1 = Val.int 1 ∧
    ∃ q : String, (migrateSplit "AA").1 = Val.str q ∧
      (q = "1" ∨ (q ≠ "" ∧ ∀ c ∈ q.data, isDigitChar c = true)) :=
  ⟨migrateSplit_quantity_kind.1, migrateSplit_quantity_kind.2 "AA" (by decide)⟩

theorem replacedLoop_update_mem (entries : List (String × String)) (did : String)
    (dtr : DT) (l : List String) (d : Val) (data : List (String × Val))
    (h : CoordAction.updateDeviceConfig d data ∈ replacedLoop entries did dtr l) :
    d = Val.str did ∧ data = [("battery_last_replaced", Val.dt dtr)] := by
  induction l with
  | nil => simp [replacedLoop] at h
  | cons eid rest ih =>
      simp only [replacedLoop, List.mem_append] at h
      cases h with
      | inr h1 => exact ih h1
      | inl h1 =>
          cases hlk : alookup entries eid with
          | none => rw [hlk] at h1; simp at h1
          | some dom =>
              rw [hlk] at h1
              have h1' : CoordAction.updateDeviceConfig d data ∈
                  (if dom = DOMAIN then
                     [CoordAction.updateDeviceConfig (Val.str did)
                        [("battery_last_replaced", Val.dt dtr)],
                      CoordAction.requestRefresh]
                   else []) := h1
              by_cases hdom : dom = DOMAIN
              · rw [if_pos hdom] at h1'
                simp at h1'
                exact h1'
              · rw [if_neg hdom] at h1'
                simp at h1'

theorem replacedLoop_update_occurs (entries : List (String × String)) (did : String)
    (dtr : DT) (l : List String) (eid : String) (h1 : eid ∈ l)
    (h2 : alookup entries eid = some DOMAIN) :
    CoordAction.updateDeviceConfig (Val.str did) [("battery_last_replaced", Val.dt dtr)]
      ∈ replacedLoop entries did dtr l := by
  induction l with
  | nil => simp at h1
  | cons e0 rest ih =>
      simp only [replacedLoop, List.mem_append]
      rcases List.mem_cons.mp h1 with h3 | h3
      · subst h3
        left
        rw [h2]
        show CoordAction.updateDeviceConfig (Val.str did)
            [("battery_last_replaced", Val.dt dtr)] ∈
          (if DOMAIN = DOMAIN then
             [CoordAction.updateDeviceConfig (Val.str did)
                [("battery_last_replaced", Val.dt dtr)],
              CoordAction.requestRefresh]
           else [])
        rw [if_pos rfl]
        simp
      · right; exact ih h3

/-- C3: a battery replaced service call whose device id is not in the device
registry makes handle_battery_replaced return without performing any
coordinator update or refresh request. -/
theorem handle_battery_replaced_unknown_device (devReg : List (String × Device))
    (entries : List (String × String)) (asUtc : DT → DT) (now : DT) (call : SvcCall)
    (h : alookup devReg (call.device_id.getD "") = none) :
    handle_battery_replaced devReg entries asUtc now call = [] := by
  simp only [handle_battery_replaced]
  rw [h]

/-- Witness for the C3 theorem with an empty device registry. -/
theorem handle_battery_replaced_unknown_device_witness :
    handle_battery_replaced [] [] (fun d => d) { ticks := 0, tzOffsetMin := none }
      { device_id := some "missing", datetime_replaced := none } = [] :=
  handle_battery_replaced_unknown_device [] [] (fun d => d)
    { ticks := 0, tzOffsetMin := none }
    { device_id := some "missing", datetime_replaced := none } rfl

/-- C4: for a registered device having some config entry in the DOMAIN of
this integration, every device config update stored via the coordinator by
handle_battery_replaced carries the caller supplied date converted to UTC
with its timezone stripped when that date is supplied, and the current UTC
time otherwise; and at least one such update is performed. -/
theorem handle_battery_replaced_stores_date (devReg : List (String × Device))
    (entries : List (String × String)) (asUtc : DT → DT) (now : DT) (call : SvcCall)
    (dev : Device) (stored : DT)
    (hdev : alookup devReg (call.device_id.getD "") = some dev)
    (hdom : ∃ eid ∈ dev.config_entries, alookup entries eid = some DOMAIN)
    (hstored : (∀ d, call.datetime_replaced = some d →
                  stored = replaceTzinfoNone (asUtc d)) ∧
               (call.datetime_replaced = none → stored = now)) :
    (CoordAction.updateDeviceConfig (Val.str (call.device_id.getD ""))
        [("battery_last_replaced", Val.dt stored)]
      ∈ handle_battery_replaced devReg entries asUtc now call) ∧
    ∀ d data, CoordAction.updateDeviceConfig d data
        ∈ handle_battery_replaced devReg entries asUtc now call →
      d = Val.str (call.device_id.getD "") ∧
      data = [("battery_last_replaced", Val.dt stored)] := by
  have hh : handle_battery_replaced devReg entries asUtc now call =
      replacedLoop entries (call.device_id.getD "") stored dev.config_entries := by
    cases hcd : call.datetime_replaced with
    | none =>
        simp only [handle_battery_replaced, hcd, hdev]
        rw [hstored.2 hcd]
    | some d =>
        simp only [handle_battery_replaced, hcd, hdev]
        rw [hstored.1 d hcd]
  obtain ⟨eid, heid, hd⟩ := hdom
  rw [hh]
  exact ⟨replacedLoop_update_occurs entries _ stored dev.config_entries eid heid hd,
         fun d data h => replacedLoop_update_mem entries _ stored dev.config_entries d data h⟩

/-- Witness for the C4 theorem: one registered device with one config entry
in the integration domain and a supplied replacement date carrying a
timezone. -/
theorem handle_battery_replaced_stores_date_witness :
    (CoordAction.updateDeviceConfig (Val.str ((some "d1").getD ""))
        [("battery_last_replaced", Val.dt { ticks := 5, tzOffsetMin := none })]
      ∈ handle_battery_replaced [("d1", { config_entries := ["e1"] })]
          [("e1", DOMAIN)] (fun d => d) { ticks := 0, tzOffsetMin := none }
          { device_id := some "d1",
            datetime_replaced := some { ticks := 5, tzOffsetMin := some 60 } }) ∧
    ∀ d data, CoordAction.updateDeviceConfig d data
        ∈ handle_battery_replaced [("d1", { config_entries := ["e1"] })]
            [("e1", DOMAIN)] (fun d => d) { ticks := 0, tzOffsetMin := none }
            { device_id := some "d1",
              datetime_replaced := some { ticks := 5, tzOffsetMin := some 60 } } →
      d = Val.str ((some "d1").getD "") ∧
      data = [("battery_last_replaced", Val.dt { ticks := 5, tzOffsetMin := none })] :=
  handle_battery_replaced_stores_date
    [("d1", { config_entries := ["e1"] })] [("e1", DOMAIN)] (fun d => d)
    { ticks := 0, tzOffsetMin := none }
    { device_id := some "d1",
      datetime_replaced := some { ticks := 5, tzOffsetMin := some 60 } }
    { config_entries := ["e1"] } { ticks := 5, tzOffsetMin := none }
    (by decide) (by decide)
    ⟨fun d hd => by cases hd; rfl, fun h => Option.noConfusion h⟩

/-- C5: the module registers exactly one service with the host, the battery
replaced service under the integration domain, validated by its schema. -/
theorem register_services_exactly_one :
    register_services =
      [{ domain := DOMAIN, service := SERVICE_BATTERY_REPLACED,
         schema := SERVICE_BATTERY_REPLACED_SCHEMA }] ∧
    register_services.length = 1 := ⟨rfl, rfl⟩

/-- C6: async_remove_entry updates the coordinator device config with
exactly the removal payload when the entry data holds a device id, and
performs no effect when it does not. -/
theorem async_remove_entry_spec (e : ConfigEntry) :
    (∀ v, alookup e.data "device_id" = some v →
        async_remove_entry e =
          [CoordAction.updateDeviceConfig v [(ATTR_REMOVE, Val.bool true)]]) ∧
    (alookup e.data "device_id" = none → async_remove_entry e = []) := by
  constructor
  · intro v hv
    unfold async_remove_entry
    rw [hv]
  · intro h
    unfold async_remove_entry
    rw [h]

/-- Witness for the C6 theorem on an entry with and an entry without a
device id. -/
theorem async_remove_entry_spec_witness :
    async_remove_entry
        { version := 2, title := "t", entry_id := "e",
          data := [("device_id", Val.str "d")] } =
      [CoordAction.updateDeviceConfig (Val.str "d") [(ATTR_REMOVE, Val.bool true)]] ∧
    async_remove_entry { version := 2, title := "t", entry_id := "e", data := [] } = [] :=
  ⟨(async_remove_entry_spec _).1 (Val.str "d") rfl, (async_remove_entry_spec _).2 rfl⟩

/-- C7: async_update_options performs exactly one host call, the reload of
the same entry. -/
theorem async_update_options_reloads_only (entry : ConfigEntry) :
    async_update_options entry = [HostCall.reload entry.entry_id] ∧
    (async_update_options entry).length = 1 := ⟨rfl, rfl⟩

/-- C9: when the host version is below the minimum, async_setup returns
False having stored no domain data and started no subsystem; otherwise it
stores domain data, starts the store, coordinator, library updater and
refresh, and returns True. -/
theorem async_setup_version_gate (config : List (String × List (String × Val))) :
    async_setup true config =
      { returnValue := false, domainData := none, storeLoaded := false,
        coordinatorCreated := false, libraryUpdaterStarted := false,
        coordinatorRefreshed := false, discoveryStarted := false } ∧
    (async_setup false config).returnValue = true ∧
    (async_setup false config).storeLoaded = true ∧
    (async_setup false config).coordinatorCreated = true ∧
    (async_setup false config).libraryUpdaterStarted = true ∧
    (async_setup false config).coordinatorRefreshed = true ∧
    (async_setup false config).domainData.isSome = true := by
  refine ⟨rfl, ?_, ?_, ?_, ?_, ?_, ?_⟩ <;> simp [async_setup]

/-- C10: with no (or a falsy) domain section the stored config is the
fallback with autodiscovery on, show all devices off and replaced on; the
fallback omits the user library key although CONFIG_SCHEMA defaults it to
the empty string; and discovery starts if and only if the effective enable
autodiscovery value is truthy. -/
theorem async_setup_default_config (config : List (String × List (String × Val))) :
    ((alookup config DOMAIN = none ∨ alookup config DOMAIN = some []) →
        (async_setup false config).domainData = some fallbackDomainConfig) ∧
    alookup fallbackDomainConfig CONF_USER_LIBRARY = none ∧
    alookup (applyConfigSchemaDefaults []) CONF_USER_LIBRARY = some (Val.str "") ∧
    ∀ dd, (async_setup false config).domainData = some dd →
      (async_setup false config).discoveryStarted =
        truthyOpt (alookup dd CONF_ENABLE_AUTODISCOVERY) := by
  refine ⟨?_, by decide, by decide, ?_⟩
  · rintro (h | h) <;> simp [async_setup, h]
  · intro dd hdd
    cases hlk : alookup config DOMAIN with
    | none =>
        simp only [async_setup, hlk] at hdd
        simp at hdd
        simp [async_setup, hlk]
        rw [← hdd]
    | some sec =>
        by_cases hs : sec.isEmpty
        · simp only [async_setup, hlk, hs] at hdd
          simp at hdd
          simp [async_setup, hlk, hs]
          rw [← hdd]
        · simp only [async_setup, hlk, hs] at hdd
          simp at hdd
          simp [async_setup, hlk, hs]
          rw [← hdd]

/-- Witness for the C10 theorem at the empty host configuration. -/
theorem async_setup_default_config_witness :
    (async_setup false []).domainData = some fallbackDomainConfig ∧
    alookup fallbackDomainConfig CONF_USER_LIBRARY = none ∧
    alookup (applyConfigSchemaDefaults []) CONF_USER_LIBRARY = some (Val.str "") ∧
    (async_setup false []).discoveryStarted =
      truthyOpt (alookup fallbackDomainConfig CONF_ENABLE_AUTODISCOVERY) :=
  ⟨(async_setup_default_config []).1 (Or.inl rfl),
   (async_setup_default_config []).2.1,
   (async_setup_default_config []).2.2.1,
   (async_setup_default_config []).2.2.2 fallbackDomainConfig
     ((async_setup_default_config []).1 (Or.inl rfl))⟩

end BatteryNotes
